import Mathlib

set_option maxHeartbeats 1000000

/- Shallow embedding of src/bin/verify_articles.py.

   JSON values loaded by json.load are modelled by JValue.  Numeric literals
   are kept as their source text (no claim depends on numeric equality), and
   equality on JValue is structural, which matches Python equality on the
   string-valued data the claims exercise. -/

inductive JValue where
  | null : JValue
  | bool : Bool → JValue
  | num : String → JValue
  | str : String → JValue
  | arr : List JValue → JValue
  | obj : List (String × JValue) → JValue

mutual

def JValue.beq : JValue → JValue → Bool
  | .null, .null => true
  | .bool a, .bool b => a == b
  | .num a, .num b => a == b
  | .str a, .str b => a == b
  | .arr xs, .arr ys => JValue.beqList xs ys
  | .obj xs, .obj ys => JValue.beqObj xs ys
  | _, _ => false

def JValue.beqList : List JValue → List JValue → Bool
  | [], [] => true
  | x :: xs, y :: ys => JValue.beq x y && JValue.beqList xs ys
  | _, _ => false

def JValue.beqObj : List (String × JValue) → List (String × JValue) → Bool
  | [], [] => true
  | (k1, v1) :: xs, (k2, v2) :: ys => k1 == k2 && JValue.beq v1 v2 && JValue.beqObj xs ys
  | _, _ => false

end

theorem JValue.beq_iff : ∀ a b, (JValue.beq a b = true ↔ a = b) := by
  apply JValue.beq.induct
    (fun a b => (JValue.beq a b = true ↔ a = b))
    (fun xs ys => (JValue.beqObj xs ys = true ↔ xs = ys))
    (fun xs ys => (JValue.beqList xs ys = true ↔ xs = ys))
  case case7 => intro t x h1 h2 h3 h4 h5 h6; cases t <;> cases x <;> simp_all [JValue.beq]
  case case10 =>
    intro t x h1 h2
    cases t <;> cases x <;> simp_all [JValue.beqList]
    exact fun _ _ => h2 _ _ _ _ rfl rfl rfl rfl
  case case13 =>
    intro t x h1 h2
    cases t <;> cases x <;> simp_all [JValue.beqObj]
    exact (h2 _ _ _ _ _ _ rfl rfl rfl rfl).elim
  all_goals (intros; simp_all [JValue.beq, JValue.beqList, JValue.beqObj])

instance : DecidableEq JValue := fun a b => decidable_of_iff (JValue.beq a b = true) (JValue.beq_iff a b)

/- One JSON-side article record, as built at lines 49-54 of the source:
   each field holds whatever JSON value product.get returned. -/
structure Article where
  id : JValue
  name : JValue
  url : JValue
  price : JValue
deriving DecidableEq

/- One HTML-side article record, as built at lines 84-87 of the source:
   both fields come from regex groups, hence are strings. -/
structure HtmlArticle where
  id : String
  name : String
deriving DecidableEq

structure UrlIssue where
  id : JValue
  name : JValue
  issue : String
deriving DecidableEq

structure CompareResult where
  missing : List Article
  extra : List HtmlArticle
  urlIssues : List UrlIssue
deriving DecidableEq

/- ---------- Python dynamic-dispatch helpers ----------
   These model CPython semantics of the operations the script applies to
   arbitrary json.load values; failure values model uncaught exceptions. -/

/- Python whitespace for the regex class and str.strip (ASCII range). -/
def pyIsSpace (c : Char) : Bool :=
  c == ' ' || c == '\t' || c == '\n' || c == '\r' || c == '\x0b' || c == '\x0c'

def pyStrip (s : String) : String :=
  String.mk (((s.toList.dropWhile pyIsSpace).reverse.dropWhile pyIsSpace).reverse)

/- Substring test (Python `needle in s` for strings). -/
def hasSubstring (needle : List Char) : List Char → Bool
  | [] => needle.isEmpty
  | c :: rest => needle.isPrefixOf (c :: rest) || hasSubstring needle rest

/- Python `needle in v` for a string needle. -/
def pyContains (needle : String) : JValue → Except String Bool
  | .obj kvs => .ok (kvs.any fun p => decide (p.1 = needle))
  | .arr xs => .ok (xs.any fun x => decide (x = JValue.str needle))
  | .str s => .ok (hasSubstring needle.toList s.toList)
  | _ => .error "TypeError: argument is not iterable"

/- Python `v[needle]` for a string key. -/
def pySubscript : JValue → String → Except String JValue
  | .obj kvs, k =>
    match kvs.find? (fun p => decide (p.1 = k)) with
    | some p => .ok p.2
    | none => .error "KeyError"
  | .str _, _ => .error "TypeError: string indices must be integers"
  | .arr _, _ => .error "TypeError: list indices must be integers"
  | _, _ => .error "TypeError: object is not subscriptable"

/- Python `v.get(k, dflt)` (a dict method). -/
def pyGetD : JValue → String → JValue → Except String JValue
  | .obj kvs, k, dflt =>
    .ok (match kvs.find? (fun p => decide (p.1 = k)) with
         | some p => p.2
         | none => dflt)
  | _, _, _ => .error "AttributeError: value has no get method"

/- Python `for x in v`. -/
def pyIter : JValue → Except String (List JValue)
  | .arr xs => .ok xs
  | .str s => .ok (s.toList.map fun c => JValue.str (String.mk [c]))
  | .obj kvs => .ok (kvs.map fun p => JValue.str p.1)
  | _ => .error "TypeError: object is not iterable"

/- Lookup in a JSON object (json.load dicts have unique keys). -/
def jLookup (kvs : List (String × JValue)) (k : String) : Option JValue :=
  (kvs.find? fun p => decide (p.1 = k)).map Prod.snd

/- Python str() of a value, as used in the report f-strings.  The repr of
   lists/dicts is not modelled (no claim depends on it). -/
def pyStr : JValue → String
  | .str s => s
  | .num s => s
  | .bool true => "True"
  | .bool false => "False"
  | .null => "None"
  | .arr _ => "[...]"
  | .obj _ => "[...]"

/- ---------- urllib.parse.urlparse (lines 94-96) ----------
   Scheme/netloc extraction of CPython urlsplit: tab/CR/LF bytes are removed,
   a scheme is split off at the first colon when the text before it is a
   letter followed by scheme characters, a netloc follows a leading '//' up
   to the first of '/', '?', '#', and mismatched square brackets in the
   netloc raise ValueError("Invalid IPv6 URL"). -/

structure ParsedUrl where
  scheme : String
  netloc : String
deriving DecidableEq

def schemeCharOK (c : Char) : Bool :=
  c.isAlpha || c.isDigit || c == '+' || c == '-' || c == '.'

def urlparse (url : String) : Except String ParsedUrl :=
  let cs := url.toList.filter fun c => !(c == '\t' || c == '\r' || c == '\n')
  let p :=
    match cs.findIdx? (fun c => c == ':') with
    | some i =>
      if decide (0 < i) && (cs.take i).all schemeCharOK &&
         (match cs.head? with | some c => c.isAlpha | none => false) then
        (String.mk ((cs.take i).map Char.toLower), cs.drop (i + 1))
      else ("", cs)
    | none => ("", cs)
  if p.2.take 2 = ['/', '/'] then
    let nl := (p.2.drop 2).takeWhile fun c => !(c == '/' || c == '?' || c == '#')
    if (nl.contains '[' && !(nl.contains ']')) || (nl.contains ']' && !(nl.contains '[')) then
      Except.error "Invalid IPv6 URL"
    else Except.ok ⟨p.1, String.mk nl⟩
  else Except.ok ⟨p.1, ""⟩

/- ---------- the article-URL regex (line 99) ----------
   re.match(r'https://www\.willhaben\.at/iad/kaufen-und-verkaufen/d/.*?-\d+/?', url)
   is a match anchored at the start only: after the literal site prefix, a
   lazy dot-star (which cannot cross a newline), a '-' followed by at least
   one digit, an optional '/'.  Nothing constrains what follows the match. -/

def expectedSite : List Char := "https://www.willhaben.at/iad/kaufen-und-verkaufen/d/".toList

/- Scans for a '-' immediately followed by a digit, crossing only
   non-newline characters on the way (the lazy dot-star). -/
def scanDashDigit : List Char → Bool
  | [] => false
  | c :: rest =>
    (decide (c = '-') && (match rest with | d :: _ => d.isDigit | [] => false)) ||
    (decide (c ≠ '\n') && scanDashDigit rest)

def reMatchArticle (url : String) : Bool :=
  expectedSite.isPrefixOf url.toList && scanDashDigit (url.toList.drop expectedSite.length)

/- verify_url_format, lines 92-102. -/
def verify_url_format (url : String) : Except String (Bool × String) :=
  match urlparse url with
  | .error e => .error e
  | .ok parsed =>
    if parsed.scheme.isEmpty || parsed.netloc.isEmpty then
      .ok (false, "URL missing scheme or domain")
    else if !(reMatchArticle url) then
      .ok (false, "URL does not match expected willhaben article pattern")
    else
      .ok (true, "Valid URL format")

/- ---------- parse_index_html (lines 59-90), file reading excluded ---------- -/

def litBlockStart : List Char := "<div class=\"product-item\"".toList

def litDivClose : List Char := "</div>".toList

/- Matches  </div>\s*</div>  at the head of cs, returning the length consumed.
   The greedy \s* must take the whole whitespace run, since a shorter run
   leaves a whitespace character where the second literal needs '<'. -/
def matchClose (cs : List Char) : Option Nat :=
  if litDivClose.isPrefixOf cs then
    let rest := cs.drop 6
    let w := (rest.takeWhile pyIsSpace).length
    if litDivClose.isPrefixOf (rest.drop w) then some (6 + w + 6) else none
  else none

/- The lazy  .*?</div>\s*</div>  (with DOTALL): the closing structure is found
   at the earliest possible position. -/
def findClose : List Char → Option Nat
  | [] => none
  | c :: rest =>
    match matchClose (c :: rest) with
    | some m => some m
    | none => (findClose rest).map (· + 1)

/- Length of the whole block match starting exactly here, if any. -/
def matchBlockAt (cs : List Char) : Option Nat :=
  if litBlockStart.isPrefixOf cs then
    (findClose (cs.drop litBlockStart.length)).map (fun n => litBlockStart.length + n)
  else none

/- re.findall: leftmost, non-overlapping.  Fuel keeps the recursion
   structural; fuel = length of the text always suffices since every step
   consumes at least one character. -/
def findBlocksAux : Nat → List Char → List (List Char)
  | 0, _ => []
  | _, [] => []
  | fuel + 1, c :: rest =>
    match matchBlockAt (c :: rest) with
    | some n => (c :: rest).take n :: findBlocksAux fuel ((c :: rest).drop n)
    | none => findBlocksAux fuel rest

def findBlocks (cs : List Char) : List (List Char) := findBlocksAux cs.length cs

/- re.search(r'ID:\s*(\d+)', item): at a given position, "ID:" then greedy
   whitespace then at least one digit; the group is the digit run.  A shorter
   whitespace run always leaves a whitespace character where \d needs a
   digit, so the match is deterministic. -/
def tryId (cs : List Char) : Option String :=
  if "ID:".toList.isPrefixOf cs then
    let t := (cs.drop 3).dropWhile pyIsSpace
    let ds := t.takeWhile Char.isDigit
    if ds.isEmpty then none else some (String.mk ds)
  else none

def searchId : List Char → Option String
  | [] => none
  | c :: rest =>
    match tryId (c :: rest) with
    | some s => some s
    | none => searchId rest

/- re.search(r'<h3>\s*<a[^>]*>([^<]+)</a>', item) at a given position.  Both
   starred classes exclude the character the following literal starts with,
   so backtracking never helps and each run is the maximal one. -/
def tryName (cs : List Char) : Option String :=
  if "<h3>".toList.isPrefixOf cs then
    let t1 := (cs.drop 4).dropWhile pyIsSpace
    if "<a".toList.isPrefixOf t1 then
      let t2 := (t1.drop 2).dropWhile (fun c => decide (c ≠ '>'))
      match t2 with
      | '>' :: t3 =>
        let nm := t3.takeWhile (fun c => decide (c ≠ '<'))
        if nm.isEmpty then none
        else if "</a>".toList.isPrefixOf (t3.drop nm.length) then some (String.mk nm)
        else none
      | _ => none
    else none
  else none

def searchName : List Char → Option String
  | [] => none
  | c :: rest =>
    match tryName (c :: rest) with
    | some s => some s
    | none => searchName rest

/- Lines 75-88: a block contributes a record only when both searches hit. -/
def parseBlock (item : List Char) : Option HtmlArticle :=
  match searchId item, searchName item with
  | some i, some n => some ⟨i, pyStrip n⟩
  | _, _ => none

def parse_index_html (html_content : String) : List HtmlArticle :=
  (findBlocks html_content.toList).filterMap parseBlock

/- ---------- extract_articles_from_json (lines 40-57) ---------- -/

/- Lines 47-55, the body handling one element of itemListElement. -/
def extractOne (li : JValue) : Except String (Option Article) :=
  match pyContains "item" li with
  | .error e => .error e
  | .ok false => .ok none
  | .ok true =>
    match pySubscript li "item" with
    | .error e => .error e
    | .ok it =>
      match pyContains "@type" it with
      | .error e => .error e
      | .ok false => .ok none
      | .ok true =>
        match pySubscript it "@type" with
        | .error e => .error e
        | .ok t =>
          if t = JValue.str "Product" then
            match pyGetD it "sku" (.str "") with
            | .error e => .error e
            | .ok sku =>
              match pyGetD it "name" (.str "") with
              | .error e => .error e
              | .ok nm =>
                match pyGetD it "url" (.str "") with
                | .error e => .error e
                | .ok url =>
                  match pyGetD it "offers" (.obj []) with
                  | .error e => .error e
                  | .ok offers =>
                    match pyGetD offers "price" (.str "") with
                    | .error e => .error e
                    | .ok price => .ok (some ⟨sku, nm, url, price⟩)
          else .ok none

def extractProducts : List JValue → Except String (List Article)
  | [] => .ok []
  | li :: rest =>
    match extractOne li with
    | .error e => .error e
    | .ok a? =>
      match extractProducts rest with
      | .error e => .error e
      | .ok restAs => .ok (match a? with | some a => a :: restAs | none => restAs)

/- Lines 44-46: the body handling one top-level object. -/
def extractFromItem (item : JValue) : Except String (List Article) :=
  match pyContains "@type" item with
  | .error e => .error e
  | .ok false => .ok []
  | .ok true =>
    match pySubscript item "@type" with
    | .error e => .error e
    | .ok t =>
      if t = JValue.str "ItemList" then
        match pyGetD item "itemListElement" (.arr []) with
        | .error e => .error e
        | .ok ile =>
          match pyIter ile with
          | .error e => .error e
          | .ok elems => extractProducts elems
      else .ok []

def extractItemsList : List JValue → Except String (List Article)
  | [] => .ok []
  | item :: rest =>
    match extractFromItem item with
    | .error e => .error e
    | .ok l =>
      match extractItemsList rest with
      | .error e => .error e
      | .ok ls => .ok (l ++ ls)

def extract_articles_from_json (json_data : JValue) : Except String (List Article) :=
  match pyIter json_data with
  | .error e => .error e
  | .ok items => extractItemsList items

/- ---------- the comparator (lines 130-155) ---------- -/

/- Python dict assignment d[k] = v: overwrite in place, else append. -/
def dictInsert {κ α : Type} [DecidableEq κ] : List (κ × α) → κ → α → List (κ × α)
  | [], k, v => [(k, v)]
  | p :: rest, k, v => if p.1 = k then (k, v) :: rest else p :: dictInsert rest k v

def dictLookup {κ α : Type} [DecidableEq κ] : List (κ × α) → κ → Option α
  | [], _ => none
  | p :: rest, k => if p.1 = k then some p.2 else dictLookup rest k

/- The value built by the dict comprehensions of lines 130-131 when every
   key is hashable.  Key equality is structural; Python's numeric/boolean
   key unification (1 == True == 1.0) is not modelled — no claim exercises
   a numeric or boolean sku. -/
def buildMap {κ α : Type} [DecidableEq κ] (key : α → κ) (l : List α) : List (κ × α) :=
  l.foldl (fun m a => dictInsert m (key a) a) []

def jsonMap (ja : List Article) : List (JValue × Article) := buildMap Article.id ja

/- Line 131: HTML-side ids are regex-group strings, always hashable, so
   this dict comprehension never raises. -/
def indexMap (ia : List HtmlArticle) : List (String × HtmlArticle) := buildMap HtmlArticle.id ia

/- Python hashability of a json.load value used as a dict key: lists and
   dicts are unhashable, every other JSON value is hashable. -/
def pyHashable : JValue → Bool
  | .arr _ => false
  | .obj _ => false
  | _ => true

def pyHashCheck : JValue → Except String Unit
  | .arr _ => .error "TypeError: unhashable type: 'list'"
  | .obj _ => .error "TypeError: unhashable type: 'dict'"
  | _ => .ok ()

/- Line 130, faithfully: the dict comprehension hashes each article id in
   order and raises TypeError at the first unhashable one. -/
def pyBuildJsonMapAux (m : List (JValue × Article)) :
    List Article → Except String (List (JValue × Article))
  | [] => .ok m
  | a :: rest =>
    match pyHashCheck a.id with
    | .error e => .error e
    | .ok _ => pyBuildJsonMapAux (dictInsert m a.id a) rest

def pyBuildJsonMap (ja : List Article) : Except String (List (JValue × Article)) :=
  pyBuildJsonMapAux [] ja

/- Python `k in index_article_ids` for a JSON-side key: equal to some string
   key of the index dict. -/
def idInIndex (im : List (String × HtmlArticle)) (k : JValue) : Bool :=
  im.any fun q => decide (JValue.str q.1 = k)

/- Python `k in json_article_ids` for an HTML-side (string) key. -/
def idInJson (jm : List (JValue × Article)) (s : String) : Bool :=
  jm.any fun p => decide (p.1 = JValue.str s)

/- Lines 133-137. -/
def missingOf (ja : List Article) (ia : List HtmlArticle) : List Article :=
  ((jsonMap ja).filter fun p => !(idInIndex (indexMap ia) p.1)).map Prod.snd

/- Lines 139-143. -/
def extraOf (ja : List Article) (ia : List HtmlArticle) : List HtmlArticle :=
  ((indexMap ia).filter fun q => !(idInJson (jsonMap ja) q.1)).map Prod.snd

/- Line 147: the common ids.  Python iterates a set here, whose order is
   unspecified; the model fixes JSON-dict insertion order.  No claim depends
   on the order of url_issues. -/
def commonOf (ja : List Article) (ia : List HtmlArticle) : List JValue :=
  ((jsonMap ja).map Prod.fst).filter fun k => idInIndex (indexMap ia) k

/- verify_url_format is called on whatever value sits in the url field;
   urlparse on a non-string raises. -/
def pyVerifyUrl : JValue → Except String (Bool × String)
  | .str s => verify_url_format s
  | _ => .error "AttributeError: url value is not a string"

/- Lines 146-155. -/
def checkUrls (jm : List (JValue × Article)) : List JValue → Except String (List UrlIssue)
  | [] => .ok []
  | k :: rest =>
    match dictLookup jm k with
    | none => .error "KeyError"
    | some ja_art =>
      match pyVerifyUrl ja_art.url with
      | .error e => .error e
      | .ok vm =>
        match checkUrls jm rest with
        | .error e => .error e
        | .ok restIssues =>
          .ok (if vm.1 then restIssues else ⟨k, ja_art.name, vm.2⟩ :: restIssues)

/- Lines 130-155: the JSON-side dict build runs first and raises on an
   unhashable id; only then are missing, extra and the url issues computed
   (jm below equals jsonMap ja whenever the build succeeds). -/
def compareArticles (ja : List Article) (ia : List HtmlArticle) : Except String CompareResult :=
  match pyBuildJsonMap ja with
  | .error e => .error e
  | .ok jm =>
    match checkUrls jm (commonOf ja ia) with
    | .error e => .error e
    | .ok issues => .ok ⟨missingOf ja ia, extraOf ja ia, issues⟩

/- ---------- the report (lines 158-184), one list entry per print call ---------- -/

def successLine : String :=
  "\nVERIFICATION SUCCESSFUL: All articles are properly indexed and URLs are correctly formatted."

def failLine : String :=
  "\nVERIFICATION FAILED: Issues were found during verification. See above for details."

def printReport (json_articles : List Article) (index_articles : List HtmlArticle)
    (r : CompareResult) : List String :=
  ["\n--- Article Verification Results ---",
   "\nTotal articles in JSON: " ++ toString json_articles.length,
   "Total articles in index.htm: " ++ toString index_articles.length]
  ++ (if r.missing.isEmpty then
        ["\nAll articles from JSON are present in index.htm."]
      else
        ("\nWARNING: " ++ toString r.missing.length ++ " articles from JSON are missing in index.htm:")
          :: r.missing.map (fun a => "  - ID: " ++ pyStr a.id ++ ", Name: " ++ pyStr a.name))
  ++ (if r.extra.isEmpty then []
      else
        ("\nINFO: " ++ toString r.extra.length ++ " articles in index.htm are not in JSON (may be normal if manually added):")
          :: r.extra.map (fun a => "  - ID: " ++ a.id ++ ", Name: " ++ a.name))
  ++ (if r.urlIssues.isEmpty then ["\nAll URLs are properly formatted."]
      else
        ("\nWARNING: " ++ toString r.urlIssues.length ++ " URL issues found:")
          :: r.urlIssues.map (fun i => "  - ID: " ++ pyStr i.id ++ ", Name: " ++ pyStr i.name ++ ", Issue: " ++ i.issue))
  ++ [if r.missing.isEmpty && r.urlIssues.isEmpty then successLine else failLine]

/- ---------- the input resolver (lines 16-25) ---------- -/

/- Path(path).glob("*.json"): names ending in ".json".  Unlike the glob
   module, pathlib's Path.glob also matches hidden names. -/
def jsonGlobMatch (n : String) : Bool :=
  (".json".toList.reverse).isPrefixOf n.toList.reverse

/- Path.stem of a *.json name strips the ".json" suffix.  (For the bare
   name ".json" pathlib keeps the whole name as the stem; the model's ""
   differs, but neither is a digit string, so the resolver's result is
   unaffected.) -/
def jsonStem (n : String) : String := String.mk (n.toList.take (n.toList.length - 5))

def isDigitString (s : String) : Bool := !s.isEmpty && s.toList.all Char.isDigit

def firstDigitStem : List String → Option String
  | [] => none
  | f :: rest => if isDigitString (jsonStem f) then some (jsonStem f) else firstDigitStem rest

def extract_seller_id_from_path (names : List String) : Option String :=
  firstDigitStem (names.filter jsonGlobMatch)

/- ---------- main (lines 104-184) ---------- -/

/- The state of the {seller_id}.json file: json.load either finds no file,
   fails to parse, or yields a JSON value.  (The JSON text parser itself is
   external library code and is modelled by this three-way outcome.) -/
inductive JsonFileState where
  | missing : JsonFileState
  | unparsable : JsonFileState
  | parsed : JValue → JsonFileState

/- The ambient process state main reads: sys.argv[1:], the working
   directory's file names, the seller JSON file and the catalog files. -/
structure Env where
  argv : List String
  cwdFiles : List String
  jsonFile : String → JsonFileState
  files : String → Option String

/- Lines 106-119. -/
def resolvedSeller (env : Env) : Option String :=
  match env.argv.head? with
  | some s => some s
  | none => extract_seller_id_from_path env.cwdFiles

def indexPathOf (env : Env) : String :=
  match env.argv.get? 1 with
  | some p => p
  | none => "index.htm"

/- How the process ends: an explicit sys.exit(1) with a message, an uncaught
   exception (also a non-zero exit, but not via an explicit call), or normal
   termination after printing the report. -/
inductive Outcome where
  | fatal : String → Outcome
  | uncaught : String → Outcome
  | success : List String → Outcome
deriving DecidableEq

def Outcome.isFatalB : Outcome → Bool
  | .fatal _ => true
  | _ => false

def Outcome.isUncaughtB : Outcome → Bool
  | .uncaught _ => true
  | _ => false

def Outcome.isSuccessB : Outcome → Bool
  | .success _ => true
  | _ => false

def runMain (env : Env) : Outcome :=
  match resolvedSeller env with
  | none => .fatal "Error: Unable to determine seller ID. Please provide it as an argument."
  | some seller_id =>
    match env.jsonFile (seller_id ++ ".json") with
    | .missing => .fatal ("Error: Seller JSON file '" ++ seller_id ++ ".json' not found.")
    | .unparsable => .fatal ("Error: Unable to parse JSON from file '" ++ seller_id ++ ".json'.")
    | .parsed json_data =>
      match extract_articles_from_json json_data with
      | .error e => .uncaught e
      | .ok json_articles =>
        match env.files (indexPathOf env) with
        | none => .fatal ("Error: index.htm file not found at '" ++ indexPathOf env ++ "'.")
        | some html_content =>
          let index_articles := parse_index_html html_content
          match compareArticles json_articles index_articles with
          | .error e => .uncaught e
          | .ok r => .success (printReport json_articles index_articles r)

/- The four fatal input errors of the claim: seller id unresolvable, JSON
   file missing, JSON file unparsable, catalog file missing (the last one is
   only reached after JSON extraction succeeded, line order 126/127). -/
def fatalCondB (env : Env) : Bool :=
  match resolvedSeller env with
  | none => true
  | some s =>
    match env.jsonFile (s ++ ".json") with
    | .missing => true
    | .unparsable => true
    | .parsed d =>
      match extract_articles_from_json d with
      | .error _ => false
      | .ok _ => (env.files (indexPathOf env)).isNone

/- ---------- definitions written from the specification's words ----------
   These are deliberately NOT taken from the source; they formalise what the
   spec sentences assert, for comparison with the embedded code. -/

/- The spec's URL shape: the whole URL is
   https://www.willhaben.at/iad/kaufen-und-verkaufen/d/<anything>-<digits>
   with an optional trailing slash and nothing else. -/
def specUrlShape (url : String) : Bool :=
  expectedSite.isPrefixOf url.toList &&
  (let tail := url.toList.drop expectedSite.length
   let t := if tail.getLast? = some '/' then tail.dropLast else tail
   let rds := t.reverse.takeWhile Char.isDigit
   !rds.isEmpty && decide ((t.reverse.drop rds.length).head? = some '-'))

/- pathlib Path.stem for an arbitrary file name (strip the last extension,
   a dot at position 0 does not count). -/
def pyStemAny (n : String) : String :=
  let cs := n.toList
  match cs.reverse.findIdx? (fun c => c == '.') with
  | some i => if decide (i + 1 < cs.length) then String.mk (cs.take (cs.length - 1 - i)) else n
  | none => n

/- The spec's resolver: first top-level file (of any kind) whose base name
   with the extension stripped is all digits. -/
def specResolveTopLevel (names : List String) : Option String :=
  (names.find? fun n => isDigitString (pyStemAny n)).map pyStemAny

/- The spec's JSON record for one Product node. -/
def specProductRecord (ikvs : List (String × JValue)) : Article :=
  { id := (jLookup ikvs "sku").getD (.str "")
    name := (jLookup ikvs "name").getD (.str "")
    url := (jLookup ikvs "url").getD (.str "")
    price :=
      match jLookup ikvs "offers" with
      | some (.obj okvs) => (jLookup okvs "price").getD (.str "")
      | _ => .str "" }

def specElemRecords (li : JValue) : List Article :=
  match li with
  | .obj lkvs =>
    match jLookup lkvs "item" with
    | some (.obj ikvs) =>
      if jLookup ikvs "@type" = some (.str "Product") then [specProductRecord ikvs] else []
    | _ => []
  | _ => []

def specItemRecords (item : JValue) : List Article :=
  match item with
  | .obj kvs =>
    if jLookup kvs "@type" = some (.str "ItemList") then
      match jLookup kvs "itemListElement" with
      | some (.arr elems) => elems.foldr (fun li acc => specElemRecords li ++ acc) []
      | _ => []
    else []
  | _ => []

def specJsonRecords (d : JValue) : List Article :=
  match d with
  | .arr items => items.foldr (fun item acc => specItemRecords item ++ acc) []
  | _ => []

/- Structural proviso under which the dynamic field accesses of the
   extractor cannot raise: itemListElement (when present on an ItemList
   object) is an array, its elements are objects, their item values are
   objects, and a Product's offers value (when present) is an object. -/
def offersOK (ikvs : List (String × JValue)) : Bool :=
  match jLookup ikvs "offers" with
  | none => true
  | some (.obj _) => true
  | some _ => false

def elemOK (li : JValue) : Bool :=
  match li with
  | .obj lkvs =>
    match jLookup lkvs "item" with
    | none => true
    | some (.obj ikvs) =>
      (match jLookup ikvs "@type" with
       | some (.str t) => if t = "Product" then offersOK ikvs else true
       | some _ => true
       | none => true)
    | some _ => false
  | _ => false

def itemOK (item : JValue) : Bool :=
  match item with
  | .obj kvs =>
    (match jLookup kvs "@type" with
     | some (.str t) =>
       if t = "ItemList" then
         match jLookup kvs "itemListElement" with
         | none => true
         | some (.arr elems) => elems.all elemOK
         | some _ => false
       else true
     | some _ => true
     | none => true)
  | _ => false

def shapeOK (d : JValue) : Bool :=
  match d with
  | .arr items => items.all itemOK
  | _ => false

/- Concrete inputs used by counterexample and witness theorems. -/

deriving instance DecidableEq for Except

/- A URL accepted by the code although it does not have the spec's shape
   (the regex is not anchored at the end). -/
def c1url : String := "https://www.willhaben.at/iad/kaufen-und-verkaufen/d/x-1abc"

/- An environment with no seller argument and no digit-named json file. -/
def envUsage : Env := ⟨[], ["readme.md"], fun _ => .missing, fun _ => none⟩

/- Two records with the same id, for the C9 witness. -/
def w9a : Article := ⟨.str "7", .str "first", .str "", .str ""⟩

def w9b : Article := ⟨.str "7", .str "second", .str "", .str ""⟩

/- Concrete one-record lists for the C3 witness. -/
def w3ja : List Article := [⟨.str "1", .str "n", .str "u", .str ""⟩]

def w3ia : List HtmlArticle := [⟨"1", "m"⟩]

/- A record whose url makes urlparse raise (mismatched bracket), sharing an
   id with the catalog side so that the URL check runs. -/
def c7ja : List Article := [⟨.str "1", .str "n", .str "http://[", .str ""⟩]

def c7ia : List HtmlArticle := [⟨"1", "nm"⟩]

/- The url value is a string the URL parser accepts without raising. -/
def urlSafeB : JValue → Bool
  | .str s => match verify_url_format s with | .ok _ => true | .error _ => false
  | _ => false

/- A comparison input whose single url is well-formed, for the C7 witness. -/
def w7ja : List Article :=
  [⟨.str "1", .str "n", .str "https://www.willhaben.at/iad/kaufen-und-verkaufen/d/t-1/", .str ""⟩]

def w7ia : List HtmlArticle := [⟨"1", "m"⟩]

/- A product block whose anchor text is a single space: the name strips to
   the empty string. -/
def c10html : String :=
  "<div class=\"product-item\">ID: 7<h3><a x> </a></h3></div>\n</div>"

/- Inputs for the C10 witness: a JSON record with a defaulted (empty) sku
   and a catalog with one well-formed block. -/
def w10ja : List Article := [⟨.str "", .str "x", .str "u", .str ""⟩]

def w10html : String := "<div class=\"product-item\">ID: 7<h3><a>N</a></h3></div> </div>"

def w10res : CompareResult := ⟨[⟨.str "", .str "x", .str "u", .str ""⟩], [⟨"7", "N"⟩], []⟩

/- A JSON document that parses and extracts fine but whose article url makes
   the comparator raise, and a catalog sharing the article id. -/
def badDoc : JValue :=
  .arr [.obj [("@type", .str "ItemList"),
              ("itemListElement", .arr [.obj [("item", .obj
                [("@type", .str "Product"), ("sku", .str "1"), ("url", .str "http://[")])]])]]

def badHtml : String := "<div class=\"product-item\">ID: 1<h3><a>n</a></h3></div> </div>"

def envBad : Env :=
  ⟨["5"], [],
   fun p => if p = "5.json" then .parsed badDoc else .missing,
   fun p => if p = "index.htm" then some badHtml else none⟩

/- A list element that is the string "item": the membership test
   'item' in list_item succeeds (substring), then list_item['item'] raises
   TypeError. -/
def c5bad : JValue :=
  .arr [.obj [("@type", .str "ItemList"), ("itemListElement", .arr [.str "item"])]]

/- A well-shaped document for the C5 witness. -/
def w5doc : JValue :=
  .arr [.obj [("@type", .str "ItemList"),
              ("itemListElement", .arr [.obj [("item", .obj
                [("@type", .str "Product"), ("sku", .str "9"), ("name", .str "N")])]])]]

/- A record whose sku is a JSON array: Python cannot hash it as a dict key,
   so line 130 raises TypeError before any comparison output exists. -/
def c3bad : List Article := [⟨.arr [], .str "n", .str "u", .str ""⟩]

/- A record with an unhashable id, duplicated for the C9 counterexample
   (in Python [] == [], so the two records have the same id). -/
def w9u : Article := ⟨.arr [], .str "dup", .str "", .str ""⟩

/- ---------- helper lemmas ---------- -/

theorem scanDashDigit_iff (cs : List Char) :
    scanDashDigit cs = true ↔
      ∃ n d, ((cs.take n).all fun c => decide (c ≠ '\n')) = true ∧
        cs[n]? = some '-' ∧ cs[n + 1]? = some d ∧ d.isDigit = true := by
  induction cs with
  | nil => simp [scanDashDigit]
  | cons c rest ih =>
    constructor
    · intro h
      simp only [scanDashDigit, Bool.or_eq_true, Bool.and_eq_true, decide_eq_true_eq] at h
      rcases h with ⟨hc, hd⟩ | ⟨hc, hs⟩
      · cases rest with
        | nil => exact absurd hd (by simp)
        | cons d rest2 =>
          exact ⟨0, d, by simp, by simp [hc], by simpa using hd⟩
      · obtain ⟨n, d, hall, h1, h2, h3⟩ := ih.mp hs
        refine ⟨n + 1, d, ?_, by simpa using h1, by simpa using h2, h3⟩
        simpa [List.all_cons, hc] using hall
    · rintro ⟨n, d, hall, h1, h2, h3⟩
      cases n with
      | zero =>
        simp only [List.getElem?_cons_zero, Option.some.injEq] at h1
        cases rest with
        | nil => simp at h2
        | cons d2 rest2 =>
          simp only [List.getElem?_cons_succ, List.getElem?_cons_zero, Option.some.injEq] at h2
          subst h1 h2
          simp [scanDashDigit, h3]
      | succ m =>
        simp only [List.take_succ_cons, List.all_cons, Bool.and_eq_true, decide_eq_true_eq] at hall
        simp only [List.getElem?_cons_succ] at h1 h2
        have := ih.mpr ⟨m, d, hall.2, h1, h2, h3⟩
        simp [scanDashDigit, hall.1, this]

/-- C1 counterexample: the code reports this URL as valid although it does
not have the spec's site/path/trailing-numeric-id shape (after the numeric
id it continues with "abc", neither end of string nor a slash); re.match
only anchors the pattern at the start. -/
theorem c1_counterexample :
    verify_url_format c1url = Except.ok (true, "Valid URL format") ∧
      specUrlShape c1url = false := by
  constructor <;> rfl

/-- C1 (amended): a URL is reported valid iff urlparse yields a non-empty
scheme and netloc AND the URL matches the article pattern as a PREFIX: it
starts with https://www.willhaben.at/iad/kaufen-und-verkaufen/d/ and, after
that prefix and crossing no newline, contains a '-' immediately followed by
a decimal digit; arbitrary content may follow. -/
theorem c1_theorem (url : String) :
    verify_url_format url = Except.ok (true, "Valid URL format") ↔
      ((∃ p, urlparse url = Except.ok p ∧ p.scheme ≠ "" ∧ p.netloc ≠ "") ∧
       expectedSite.isPrefixOf url.toList = true ∧
       ∃ n d, (((url.toList.drop expectedSite.length).take n).all fun c => decide (c ≠ '\n')) = true ∧
         (url.toList.drop expectedSite.length)[n]? = some '-' ∧
         (url.toList.drop expectedSite.length)[n + 1]? = some d ∧ d.isDigit = true) := by
  cases h : urlparse url with
  | error e =>
    have hv : verify_url_format url = .error e := by unfold verify_url_format; rw [h]
    rw [hv]
    simp
  | ok p =>
    have hv : verify_url_format url =
        (if p.scheme.isEmpty || p.netloc.isEmpty then
           Except.ok (false, "URL missing scheme or domain")
         else if !(reMatchArticle url) then
           Except.ok (false, "URL does not match expected willhaben article pattern")
         else Except.ok (true, "Valid URL format")) := by
      unfold verify_url_format; rw [h]
    by_cases hs : (p.scheme.isEmpty || p.netloc.isEmpty) = true
    · have hs2 : p.scheme = "" ∨ p.netloc = "" := by
        simpa [String.isEmpty_iff] using hs
      rw [hv, if_pos hs]
      constructor
      · intro hbad; exact absurd hbad (by simp)
      · rintro ⟨⟨q, hq, hq1, hq2⟩, -, -⟩
        obtain rfl := Except.ok.inj hq
        rcases hs2 with h2 | h2
        · exact absurd h2 hq1
        · exact absurd h2 hq2
    · by_cases hm : reMatchArticle url = true
      · have hpre : expectedSite.isPrefixOf url.toList = true ∧
            scanDashDigit (url.toList.drop expectedSite.length) = true := by
          simpa [reMatchArticle, Bool.and_eq_true] using hm
        have hnem : p.scheme ≠ "" ∧ p.netloc ≠ "" := by
          constructor <;> (intro he; apply hs; simp [String.isEmpty_iff, he])
        have hnm : (!reMatchArticle url) = false := by simp [hm]
        rw [hv, if_neg hs, hnm]
        simp only [Bool.false_eq_true, if_false]
        constructor
        · intro _
          exact ⟨⟨p, rfl, hnem.1, hnem.2⟩, hpre.1, (scanDashDigit_iff _).mp hpre.2⟩
        · intro _; trivial
      · have hrm : reMatchArticle url = false := by
          cases hb : reMatchArticle url
          · rfl
          · exact absurd hb hm
        have hnm : (!reMatchArticle url) = true := by simp [hrm]
        rw [hv, if_neg hs, hnm]
        simp only [if_true]
        constructor
        · intro hbad; exact absurd hbad (by simp)
        · rintro ⟨-, hpre2, hex⟩
          have hrt : reMatchArticle url = true := by
            simp only [reMatchArticle, Bool.and_eq_true]
            exact ⟨hpre2, (scanDashDigit_iff _).mpr hex⟩
          exact absurd hrt hm

/-- C6: a candidate block found by the block-splitting pattern contributes a
record exactly when both the ID marker and the h3-anchor name are found in
it; blocks missing either are dropped and contribute nothing, and each
contributing block yields the record formed from its two matches. -/
theorem c6_theorem (html_content : String) :
    parse_index_html html_content =
      ((findBlocks html_content.toList).filter
          (fun b => (searchId b).isSome && (searchName b).isSome)).map
        (fun b => ⟨((searchId b).getD ""), pyStrip ((searchName b).getD "")⟩) := by
  unfold parse_index_html
  induction findBlocks html_content.toList with
  | nil => rfl
  | cons b bs ih =>
    cases hi : searchId b <;> cases hn : searchName b <;>
      simp [List.filterMap_cons, List.filter_cons, parseBlock, hi, hn, ih]

theorem firstDigitStem_eq (l : List String) :
    firstDigitStem l = ((l.filter fun n => isDigitString (jsonStem n)).head?).map jsonStem := by
  induction l with
  | nil => rfl
  | cons f rest ih =>
    cases h : isDigitString (jsonStem f) <;> simp [firstDigitStem, List.filter_cons, h, ih]

/-- C8 counterexample: the resolver only scans *.json files (glob "*.json"),
not all top-level files: for a working directory holding just "123.txt" the
code resolves nothing (and aborts when no argument is given), while the
claim says the stem "123" would be used. -/
theorem c8_counterexample :
    extract_seller_id_from_path ["123.txt"] = none ∧
      specResolveTopLevel ["123.txt"] = some "123" := by
  constructor <;> rfl

/-- C8 (amended): with no seller-id argument the resolver scans only the
working directory's *.json files (hidden names excluded) and returns the
stem of the first whose stem is all digits; when no argument is given and no
such file exists, main terminates with the fatal usage error. -/
theorem c8_theorem :
    (∀ names : List String,
        extract_seller_id_from_path names =
          ((names.filter fun n => isDigitString (jsonStem n) && jsonGlobMatch n).head?).map jsonStem)
    ∧ (∀ env : Env, resolvedSeller env = none →
        runMain env = .fatal "Error: Unable to determine seller ID. Please provide it as an argument.") := by
  constructor
  · intro names
    rw [extract_seller_id_from_path, firstDigitStem_eq, List.filter_filter]
  · intro env h
    simp [runMain, h]

/-- C8 witness: the fatal usage error at a concrete environment with no
argument and no digit-named json file. -/
theorem c8_witness :
    runMain envUsage = .fatal "Error: Unable to determine seller ID. Please provide it as an argument." :=
  c8_theorem.2 envUsage rfl

/- ---------- dict lemmas ---------- -/

theorem mem_keys_dictInsert {κ α : Type} [DecidableEq κ] (m : List (κ × α)) (k k2 : κ) (v : α) :
    k2 ∈ (dictInsert m k v).map Prod.fst ↔ k2 ∈ m.map Prod.fst ∨ k2 = k := by
  induction m with
  | nil => simp [dictInsert]
  | cons p rest ih =>
    by_cases h : p.1 = k <;> simp [dictInsert, h, ih, List.mem_cons] <;> tauto

theorem dictLookup_dictInsert {κ α : Type} [DecidableEq κ] (m : List (κ × α)) (k k2 : κ) (v : α) :
    dictLookup (dictInsert m k v) k2 = if k = k2 then some v else dictLookup m k2 := by
  induction m with
  | nil => simp [dictInsert, dictLookup]
  | cons p rest ih =>
    by_cases h : p.1 = k
    · simp only [dictInsert, h, if_pos, dictLookup]
      by_cases h2 : k = k2
      · simp [h2]
      · have hne : ¬(p.1 = k2) := by rw [h]; exact h2
        simp [h2, hne]
    · simp only [dictInsert, h, if_neg, not_false_iff, dictLookup, ih]
      by_cases h2 : p.1 = k2
      · have hne : ¬(k = k2) := fun he => h (h2.trans he.symm)
        simp [h2, hne]
      · simp [h2]

theorem entry_dictInsert {κ α : Type} [DecidableEq κ] (m : List (κ × α)) (k : κ) (v : α)
    (p : κ × α) : p ∈ dictInsert m k v → p = (k, v) ∨ p ∈ m := by
  induction m with
  | nil => simp [dictInsert]
  | cons q rest ih =>
    by_cases h : q.1 = k <;> simp [dictInsert, h] <;> intro hp <;> rcases hp with h1 | h1
    · exact Or.inl h1
    · exact Or.inr (Or.inr h1)
    · exact Or.inr (Or.inl h1)
    · rcases ih h1 with h2 | h2
      · exact Or.inl h2
      · exact Or.inr (Or.inr h2)

theorem keys_nodup_dictInsert {κ α : Type} [DecidableEq κ] (m : List (κ × α)) (k : κ) (v : α) :
    (m.map Prod.fst).Nodup → ((dictInsert m k v).map Prod.fst).Nodup := by
  induction m with
  | nil => simp [dictInsert]
  | cons q rest ih =>
    intro hn
    simp only [List.map_cons, List.nodup_cons] at hn
    by_cases h : q.1 = k
    · simp only [dictInsert, h, if_pos, List.map_cons, List.nodup_cons]
      exact ⟨by rw [← h]; exact hn.1, hn.2⟩
    · simp only [dictInsert, h, if_neg, not_false_iff, List.map_cons, List.nodup_cons]
      refine ⟨fun hc => ?_, ih hn.2⟩
      rcases (mem_keys_dictInsert rest k q.1 v).mp hc with h2 | h2
      · exact hn.1 h2
      · exact h h2

theorem buildMap_keys_mem {κ α : Type} [DecidableEq κ] (key : α → κ) (l : List α) (k : κ) :
    k ∈ (buildMap key l).map Prod.fst ↔ k ∈ l.map key := by
  have gen : ∀ (l2 : List α) (m : List (κ × α)),
      (k ∈ ((l2.foldl (fun m a => dictInsert m (key a) a) m).map Prod.fst) ↔
        k ∈ m.map Prod.fst ∨ k ∈ l2.map key) := by
    intro l2
    induction l2 with
    | nil => intro m; simp
    | cons a rest ih =>
      intro m
      simp only [List.foldl_cons, List.map_cons, List.mem_cons]
      rw [ih, mem_keys_dictInsert]
      tauto
  simpa [buildMap] using gen l []

theorem buildMap_entry {κ α : Type} [DecidableEq κ] (key : α → κ) (l : List α) (p : κ × α) :
    p ∈ buildMap key l → p.1 = key p.2 ∧ p.2 ∈ l := by
  have gen : ∀ (l2 : List α) (m : List (κ × α)),
      p ∈ (l2.foldl (fun m a => dictInsert m (key a) a) m) →
        p ∈ m ∨ (p.1 = key p.2 ∧ p.2 ∈ l2) := by
    intro l2
    induction l2 with
    | nil => intro m h; exact Or.inl h
    | cons a rest ih =>
      intro m h
      rcases ih (dictInsert m (key a) a) h with h2 | h2
      · rcases entry_dictInsert m (key a) a p h2 with h3 | h3
        · subst h3; exact Or.inr ⟨rfl, by simp⟩
        · exact Or.inl h3
      · exact Or.inr ⟨h2.1, by simp [h2.2]⟩
  intro h
  rcases gen l [] (by simpa [buildMap] using h) with h2 | h2
  · simp at h2
  · exact h2

theorem buildMap_keys_nodup {κ α : Type} [DecidableEq κ] (key : α → κ) (l : List α) :
    ((buildMap key l).map Prod.fst).Nodup := by
  have gen : ∀ (l2 : List α) (m : List (κ × α)), (m.map Prod.fst).Nodup →
      (((l2.foldl (fun m a => dictInsert m (key a) a) m)).map Prod.fst).Nodup := by
    intro l2
    induction l2 with
    | nil => intro m h; exact h
    | cons a rest ih =>
      intro m h
      exact ih _ (keys_nodup_dictInsert m (key a) a h)
  simpa [buildMap] using gen l [] (by simp)

theorem buildMap_lookup {κ α : Type} [DecidableEq κ] (key : α → κ) (l : List α) (k : κ) :
    dictLookup (buildMap key l) k = (l.filter fun a => decide (key a = k)).getLast? := by
  induction l using List.reverseRecOn with
  | nil => rfl
  | append_singleton l2 a ih =>
    rw [buildMap, List.foldl_append] at *
    simp only [List.foldl_cons, List.foldl_nil]
    rw [dictLookup_dictInsert, List.filter_append]
    simp only [List.filter_cons, List.filter_nil]
    by_cases h : key a = k
    · simp [h, List.getLast?_concat]
    · simp [h, ih, buildMap]

theorem pyBuildJsonMapAux_ok (l : List Article) :
    ∀ m, (l.all fun a => pyHashable a.id) = true →
      pyBuildJsonMapAux m l = Except.ok (l.foldl (fun m2 a => dictInsert m2 a.id a) m) := by
  induction l with
  | nil => intro m _; rfl
  | cons a rest ih =>
    intro m h
    simp only [List.all_cons, Bool.and_eq_true] at h
    obtain ⟨h1, h2⟩ := h
    have hc : pyHashCheck a.id = Except.ok () := by
      cases hid : a.id <;> first
        | rfl
        | (rw [hid] at h1; simp [pyHashable] at h1)
    simp only [pyBuildJsonMapAux, hc, List.foldl_cons]
    exact ih (dictInsert m a.id a) h2

theorem pyBuildJsonMap_ok (ja : List Article)
    (h : (ja.all fun a => pyHashable a.id) = true) :
    pyBuildJsonMap ja = Except.ok (jsonMap ja) := by
  rw [pyBuildJsonMap, pyBuildJsonMapAux_ok ja [] h]
  rfl

theorem buildMap_dup {κ α : Type} [DecidableEq κ] (key : α → κ) (l : List α) (k : κ)
    (h : 2 ≤ (l.filter fun a => decide (key a = k)).length) :
    ((buildMap key l).map Prod.fst).count k = 1 ∧
      dictLookup (buildMap key l) k = (l.filter fun a => decide (key a = k)).getLast? := by
  constructor
  · have hne : (l.filter fun a => decide (key a = k)) ≠ [] := by
      intro he; rw [he] at h; simp at h
    obtain ⟨a, ha⟩ := List.exists_mem_of_ne_nil _ hne
    have hk : key a = k := by simpa using List.of_mem_filter ha
    have hm : k ∈ l.map key :=
      List.mem_map.mpr ⟨a, List.mem_of_mem_filter ha, hk⟩
    exact List.count_eq_one_of_mem (buildMap_keys_nodup key l)
      ((buildMap_keys_mem key l k).mpr hm)
  · exact buildMap_lookup key l k

/-- C9 counterexample: two records sharing the id [] — equal under Python
== — make the dict comprehension of line 130 raise TypeError (lists are
unhashable) before any mapping exists, so "exactly one entry ... no error is
raised for duplicates" fails as stated. -/
theorem c9_counterexample :
    2 ≤ ([w9u, w9u].filter fun a => decide (a.id = JValue.arr [])).length ∧
      pyBuildJsonMap [w9u, w9u] = Except.error "TypeError: unhashable type: 'list'" :=
  ⟨by decide, rfl⟩

/-- C9 (amended): when a source's record list holds two or more records with
the same id, the id-to-record dict built by the comparator has exactly one
entry for that id, holding the record occurring last in extraction order,
and duplicates raise no error — PROVIDED the ids are hashable: on the JSON
side this needs every id to be no JSON array/object (else the build raises
TypeError, see the counterexample); on the HTML side ids are strings and the
property holds unconditionally. -/
theorem c9_theorem :
    (∀ (ja : List Article) (k : JValue),
        (ja.all fun a => pyHashable a.id) = true →
        2 ≤ (ja.filter fun a => decide (a.id = k)).length →
        ∃ m, pyBuildJsonMap ja = Except.ok m ∧
          (m.map Prod.fst).count k = 1 ∧
          dictLookup m k = (ja.filter fun a => decide (a.id = k)).getLast?) ∧
    (∀ (ia : List HtmlArticle) (s : String),
        2 ≤ (ia.filter fun a => decide (a.id = s)).length →
        ((indexMap ia).map Prod.fst).count s = 1 ∧
          dictLookup (indexMap ia) s = (ia.filter fun a => decide (a.id = s)).getLast?) := by
  constructor
  · intro ja k h1 h2
    exact ⟨jsonMap ja, pyBuildJsonMap_ok ja h1, buildMap_dup Article.id ja k h2⟩
  · intro ia s h2
    exact buildMap_dup HtmlArticle.id ia s h2

/-- C9 witness: the duplicate-id property applied to a concrete two-record
list sharing the hashable id "7". -/
theorem c9_witness :
    ∃ m, pyBuildJsonMap [w9a, w9b] = Except.ok m ∧
      (m.map Prod.fst).count (JValue.str "7") = 1 ∧
      dictLookup m (JValue.str "7") =
        ([w9a, w9b].filter fun a => decide (a.id = JValue.str "7")).getLast? :=
  c9_theorem.1 [w9a, w9b] (JValue.str "7") (by decide) (by decide)

/- ---------- membership characterisations for the comparator ---------- -/

theorem idInIndex_iff (ia : List HtmlArticle) (k : JValue) :
    idInIndex (indexMap ia) k = true ↔ ∃ s ∈ ia.map HtmlArticle.id, k = JValue.str s := by
  rw [idInIndex, List.any_eq_true]
  constructor
  · rintro ⟨q, hq, he⟩
    have hk : JValue.str q.1 = k := by simpa using he
    have : q.1 ∈ (indexMap ia).map Prod.fst := List.mem_map.mpr ⟨q, hq, rfl⟩
    exact ⟨q.1, (buildMap_keys_mem HtmlArticle.id ia q.1).mp this, hk.symm⟩
  · rintro ⟨s, hs, rfl⟩
    have : s ∈ (indexMap ia).map Prod.fst := (buildMap_keys_mem HtmlArticle.id ia s).mpr hs
    obtain ⟨q, hq, hqs⟩ := List.mem_map.mp this
    exact ⟨q, hq, by simp [hqs]⟩

theorem idInJson_iff (ja : List Article) (s : String) :
    idInJson (jsonMap ja) s = true ↔ JValue.str s ∈ ja.map Article.id := by
  rw [idInJson, List.any_eq_true]
  constructor
  · rintro ⟨p, hp, he⟩
    have hk : p.1 = JValue.str s := by simpa using he
    have : p.1 ∈ (jsonMap ja).map Prod.fst := List.mem_map.mpr ⟨p, hp, rfl⟩
    rw [hk] at this
    exact (buildMap_keys_mem Article.id ja _).mp this
  · intro hs
    have : JValue.str s ∈ (jsonMap ja).map Prod.fst := (buildMap_keys_mem Article.id ja _).mpr hs
    obtain ⟨p, hp, hps⟩ := List.mem_map.mp this
    exact ⟨p, hp, by simp [hps]⟩

theorem mem_missing_ids (ja : List Article) (ia : List HtmlArticle) (k : JValue) :
    k ∈ (missingOf ja ia).map Article.id ↔
      (k ∈ ja.map Article.id ∧ idInIndex (indexMap ia) k = false) := by
  rw [missingOf, List.map_map]
  constructor
  · intro hm
    obtain ⟨p, hp, hpk⟩ := List.mem_map.mp hm
    have hf := List.mem_filter.mp hp
    have he := buildMap_entry Article.id ja p hf.1
    have hpk2 : p.1 = k := by rw [he.1]; exact hpk
    constructor
    · rw [← hpk2]
      exact (buildMap_keys_mem Article.id ja p.1).mp (List.mem_map.mpr ⟨p, hf.1, rfl⟩)
    · have := hf.2
      rw [hpk2] at this
      simpa using this
  · rintro ⟨hk, hni⟩
    have : k ∈ (jsonMap ja).map Prod.fst := (buildMap_keys_mem Article.id ja k).mpr hk
    obtain ⟨p, hp, hpk⟩ := List.mem_map.mp this
    have he := buildMap_entry Article.id ja p hp
    refine List.mem_map.mpr ⟨p, List.mem_filter.mpr ⟨hp, ?_⟩, ?_⟩
    swap
    · show p.2.id = k
      rw [← he.1]; exact hpk
    rw [hpk, hni]
    rfl

theorem mem_extra_ids (ja : List Article) (ia : List HtmlArticle) (s : String) :
    s ∈ (extraOf ja ia).map HtmlArticle.id ↔
      (s ∈ ia.map HtmlArticle.id ∧ idInJson (jsonMap ja) s = false) := by
  rw [extraOf, List.map_map]
  constructor
  · intro hm
    obtain ⟨q, hq, hqs⟩ := List.mem_map.mp hm
    have hf := List.mem_filter.mp hq
    have he := buildMap_entry HtmlArticle.id ia q hf.1
    have hqs2 : q.1 = s := by rw [he.1]; exact hqs
    constructor
    · rw [← hqs2]
      exact (buildMap_keys_mem HtmlArticle.id ia q.1).mp (List.mem_map.mpr ⟨q, hf.1, rfl⟩)
    · have := hf.2
      rw [hqs2] at this
      simpa using this
  · rintro ⟨hs, hni⟩
    have : s ∈ (indexMap ia).map Prod.fst := (buildMap_keys_mem HtmlArticle.id ia s).mpr hs
    obtain ⟨q, hq, hqs⟩ := List.mem_map.mp this
    have he := buildMap_entry HtmlArticle.id ia q hq
    refine List.mem_map.mpr ⟨q, List.mem_filter.mpr ⟨hq, ?_⟩, ?_⟩
    swap
    · show q.2.id = s
      rw [← he.1]; exact hqs
    rw [hqs, hni]
    rfl

theorem mem_commonOf (ja : List Article) (ia : List HtmlArticle) (k : JValue) :
    k ∈ commonOf ja ia ↔ (k ∈ ja.map Article.id ∧ idInIndex (indexMap ia) k = true) := by
  rw [commonOf, List.mem_filter, jsonMap, buildMap_keys_mem Article.id ja k]

/-- C3 counterexample: the comparator does not produce the difference sets
for EVERY record list: a record whose sku is a JSON array is unhashable, so
the dict comprehension of line 130 raises TypeError before any missing or
extra list exists. -/
theorem c3_counterexample :
    compareArticles c3bad [] = Except.error "TypeError: unhashable type: 'list'" := by rfl

/-- C3 (amended): provided every JSON-side record id is hashable (no JSON
array/object sku), the comparator's dict build succeeds and it produces
missing as exactly the JSON-side ids absent from the HTML-side ids and extra
as exactly the HTML-side ids absent from the JSON-side ids; the
missing/extra/common id sets are pairwise disjoint, and equal id sets give
empty missing and extra lists.  (An unhashable sku instead aborts the
comparison; see the counterexample.) -/
theorem c3_theorem (ja : List Article) (ia : List HtmlArticle)
    (hh : (ja.all fun a => pyHashable a.id) = true) :
    pyBuildJsonMap ja = Except.ok (jsonMap ja) ∧
    (∀ k, k ∈ (missingOf ja ia).map Article.id ↔
        (k ∈ ja.map Article.id ∧ ∀ s ∈ ia.map HtmlArticle.id, k ≠ JValue.str s)) ∧
    (∀ s, s ∈ (extraOf ja ia).map HtmlArticle.id ↔
        (s ∈ ia.map HtmlArticle.id ∧ JValue.str s ∉ ja.map Article.id)) ∧
    (∀ k s, k ∈ (missingOf ja ia).map Article.id →
        s ∈ (extraOf ja ia).map HtmlArticle.id → k ≠ JValue.str s) ∧
    (∀ k, k ∈ (missingOf ja ia).map Article.id → k ∉ commonOf ja ia) ∧
    (∀ s, s ∈ (extraOf ja ia).map HtmlArticle.id → JValue.str s ∉ commonOf ja ia) ∧
    ((∀ k, k ∈ ja.map Article.id ↔ ∃ s ∈ ia.map HtmlArticle.id, k = JValue.str s) →
        missingOf ja ia = [] ∧ extraOf ja ia = []) := by
  refine ⟨pyBuildJsonMap_ok ja hh, ?_⟩
  have hmiss : ∀ k, k ∈ (missingOf ja ia).map Article.id ↔
      (k ∈ ja.map Article.id ∧ ∀ s ∈ ia.map HtmlArticle.id, k ≠ JValue.str s) := by
    intro k
    rw [mem_missing_ids]
    constructor
    · rintro ⟨h1, h2⟩
      refine ⟨h1, fun s hs he => ?_⟩
      have : idInIndex (indexMap ia) k = true := (idInIndex_iff ia k).mpr ⟨s, hs, he⟩
      rw [this] at h2; cases h2
    · rintro ⟨h1, h2⟩
      refine ⟨h1, ?_⟩
      cases hc : idInIndex (indexMap ia) k
      · rfl
      · obtain ⟨s, hs, he⟩ := (idInIndex_iff ia k).mp hc
        exact absurd he (h2 s hs)
  have hextra : ∀ s, s ∈ (extraOf ja ia).map HtmlArticle.id ↔
      (s ∈ ia.map HtmlArticle.id ∧ JValue.str s ∉ ja.map Article.id) := by
    intro s
    rw [mem_extra_ids]
    constructor
    · rintro ⟨h1, h2⟩
      refine ⟨h1, fun hc => ?_⟩
      have : idInJson (jsonMap ja) s = true := (idInJson_iff ja s).mpr hc
      rw [this] at h2; cases h2
    · rintro ⟨h1, h2⟩
      refine ⟨h1, ?_⟩
      cases hc : idInJson (jsonMap ja) s
      · rfl
      · exact absurd ((idInJson_iff ja s).mp hc) h2
  refine ⟨hmiss, hextra, ?_, ?_, ?_, ?_⟩
  · intro k s hk hs
    have h1 := (hmiss k).mp hk
    have h2 := (hextra s).mp hs
    exact h1.2 s h2.1
  · intro k hk hc
    have h1 := (hmiss k).mp hk
    obtain ⟨hcj, hci⟩ := (mem_commonOf ja ia k).mp hc
    obtain ⟨s, hs, he⟩ := (idInIndex_iff ia k).mp hci
    exact h1.2 s hs he
  · intro s hs hc
    have h2 := (hextra s).mp hs
    obtain ⟨hcj, hci⟩ := (mem_commonOf ja ia (JValue.str s)).mp hc
    exact h2.2 hcj
  · intro heq
    constructor
    · rw [List.eq_nil_iff_forall_not_mem]
      intro a ha
      have hk : a.id ∈ (missingOf ja ia).map Article.id := List.mem_map.mpr ⟨a, ha, rfl⟩
      have h1 := (hmiss a.id).mp hk
      obtain ⟨s, hs, he⟩ := (heq a.id).mp h1.1
      exact h1.2 s hs he
    · rw [List.eq_nil_iff_forall_not_mem]
      intro q hq
      have hk : q.id ∈ (extraOf ja ia).map HtmlArticle.id := List.mem_map.mpr ⟨q, hq, rfl⟩
      have h2 := (hextra q.id).mp hk
      exact h2.2 ((heq (JValue.str q.id)).mpr ⟨q.id, h2.1, rfl⟩)

/-- C3 witness: the equal-ids consequence applied to concrete matching
one-record lists with hashable ids. -/
theorem c3_witness : missingOf w3ja w3ia = [] ∧ extraOf w3ja w3ia = [] :=
  (c3_theorem w3ja w3ia (by decide)).2.2.2.2.2.2 (by intro k; simp [w3ja, w3ia])

theorem printReport_getLast (ja : List Article) (ia : List HtmlArticle) (r : CompareResult) :
    (printReport ja ia r).getLast? =
      some (if r.missing.isEmpty && r.urlIssues.isEmpty then successLine else failLine) := by
  rw [printReport, List.getLast?_concat]

/-- C2: the final verdict line printed by the reporter is the success line
exactly when the missing list and the url-issues list are both empty; a
non-empty extra list never flips the verdict (it does not occur in the
condition). -/
theorem c2_theorem (ja : List Article) (ia : List HtmlArticle) (r : CompareResult)
    (h : compareArticles ja ia = Except.ok r) :
    ((printReport ja ia r).getLast? = some successLine ↔
      (r.missing = [] ∧ r.urlIssues = [])) := by
  rw [printReport_getLast]
  constructor
  · intro he
    by_cases hc : (r.missing.isEmpty && r.urlIssues.isEmpty) = true
    · simpa [Bool.and_eq_true, List.isEmpty_iff] using hc
    · rw [if_neg hc] at he
      have hbad : failLine = successLine := Option.some.inj he
      exact absurd hbad (by decide)
  · rintro ⟨h1, h2⟩
    simp [h1, h2]

/-- C2 witness: the verdict property applied to the empty comparison. -/
theorem c2_witness :
    ((printReport [] [] ⟨[], [], []⟩).getLast? = some successLine ↔
      ((⟨[], [], []⟩ : CompareResult).missing = [] ∧
        (⟨[], [], []⟩ : CompareResult).urlIssues = [])) :=
  c2_theorem [] [] ⟨[], [], []⟩ rfl

theorem dictLookup_of_mem_keys {κ α : Type} [DecidableEq κ] (m : List (κ × α)) (k : κ) :
    k ∈ m.map Prod.fst → ∃ v, dictLookup m k = some v := by
  induction m with
  | nil => simp
  | cons p rest ih =>
    intro h
    by_cases hp : p.1 = k
    · exact ⟨p.2, by simp [dictLookup, hp]⟩
    · simp only [List.map_cons, List.mem_cons] at h
      rcases h with h | h
      · exact absurd h.symm hp
      · obtain ⟨v, hv⟩ := ih h
        exact ⟨v, by simp [dictLookup, hp, hv]⟩

theorem dictLookup_entry {κ α : Type} [DecidableEq κ] (m : List (κ × α)) (k : κ) (v : α) :
    dictLookup m k = some v → (k, v) ∈ m := by
  induction m with
  | nil => simp [dictLookup]
  | cons p rest ih =>
    by_cases hp : p.1 = k <;> simp only [dictLookup, hp, if_pos, if_neg, not_false_iff]
    · intro he
      have he2 : p.2 = v := Option.some.inj he
      have : p = (k, v) := Prod.ext hp he2
      simp [this]
    · intro he
      simp [ih he]

/-- C7 counterexample: the comparator is not failure-free for every record
contents: for a common-id record whose url string is "http://[" the URL
parser raises ValueError("Invalid IPv6 URL"), which propagates out of the
comparison uncaught. -/
theorem c7_counterexample :
    compareArticles c7ja c7ia = Except.error "Invalid IPv6 URL" := by rfl

/-- C7 (amended): the comparator is a pure function of the two record lists
producing the three result lists, and it performs no I/O and raises no
failure PROVIDED every JSON-side record's id is hashable (not a JSON
array/object) and its url field is a string on which the URL parser does not
raise; an unhashable id aborts the dict build with TypeError, and a
non-string url or one with mismatched square brackets in its authority
aborts the URL check (see the counterexample). -/
theorem c7_theorem (ja : List Article) (ia : List HtmlArticle)
    (h1 : (ja.all fun a => pyHashable a.id) = true)
    (h : ∀ a ∈ ja, urlSafeB a.url = true) :
    ∃ r : CompareResult, compareArticles ja ia = Except.ok r := by
  have hc : ∀ ks : List JValue, (∀ k ∈ ks, k ∈ (jsonMap ja).map Prod.fst) →
      ∃ issues, checkUrls (jsonMap ja) ks = Except.ok issues := by
    intro ks
    induction ks with
    | nil => intro _; exact ⟨[], rfl⟩
    | cons k rest ih =>
      intro hks
      obtain ⟨v, hv⟩ := dictLookup_of_mem_keys (jsonMap ja) k (hks k (by simp))
      have hvja : v ∈ ja := (buildMap_entry Article.id ja (k, v) (dictLookup_entry _ _ _ hv)).2
      have hsafe := h v hvja
      have hverify : ∃ vm, pyVerifyUrl v.url = Except.ok vm := by
        cases hu : v.url <;> rw [hu] at hsafe <;> simp [urlSafeB] at hsafe
        case str s =>
          cases hvf : verify_url_format s with
          | error e => rw [hvf] at hsafe; simp at hsafe
          | ok vm0 => exact ⟨vm0, by simp [pyVerifyUrl, hvf]⟩
      obtain ⟨vm, hvm⟩ := hverify
      obtain ⟨issues, hi⟩ := ih (fun k2 hk2 => hks k2 (by simp [hk2]))
      refine ⟨if vm.1 then issues else ⟨k, v.name, vm.2⟩ :: issues, ?_⟩
      simp only [checkUrls, hv, hvm, hi]
  obtain ⟨issues, hi⟩ := hc (commonOf ja ia)
    (fun k hk => (List.mem_filter.mp hk).1)
  exact ⟨⟨missingOf ja ia, extraOf ja ia, issues⟩,
    by simp only [compareArticles, pyBuildJsonMap_ok ja h1, hi]⟩

/-- C7 witness: the no-failure property applied to a concrete pair of lists
whose common record has a well-formed url string. -/
theorem c7_witness : ∃ r : CompareResult, compareArticles w7ja w7ia = Except.ok r :=
  c7_theorem w7ja w7ia (by decide) (by decide)

theorem tryId_digits (cs : List Char) (s : String) :
    tryId cs = some s → (s.toList ≠ [] ∧ s.toList.all Char.isDigit = true) := by
  rw [tryId]
  by_cases h : ("ID:".toList.isPrefixOf cs) = true
  · simp only [h, if_pos]
    by_cases he : (((cs.drop 3).dropWhile pyIsSpace).takeWhile Char.isDigit).isEmpty = true
    · simp [he]
    · simp only [he, if_neg, Bool.false_eq_true, not_false_iff, if_false]
      intro hsome
      have hs : String.mk (((cs.drop 3).dropWhile pyIsSpace).takeWhile Char.isDigit) = s :=
        Option.some.inj hsome
      have hlist : s.toList = ((cs.drop 3).dropWhile pyIsSpace).takeWhile Char.isDigit := by
        rw [← hs]
        rfl
      constructor
      · rw [hlist]
        intro hnil
        rw [List.isEmpty_iff] at he
        exact he hnil
      · rw [hlist]
        exact List.all_takeWhile
  · rw [if_neg h]
    intro hx
    cases hx

theorem searchId_digits (cs : List Char) (s : String) :
    searchId cs = some s → (s.toList ≠ [] ∧ s.toList.all Char.isDigit = true) := by
  induction cs with
  | nil => simp [searchId]
  | cons c rest ih =>
    cases ht : tryId (c :: rest) with
    | some s2 =>
      intro hh
      rw [searchId, ht] at hh
      exact tryId_digits (c :: rest) s (by rw [ht, Option.some.inj hh])
    | none =>
      intro hh
      rw [searchId, ht] at hh
      exact ih hh

/-- C10 counterexample: the HTML extractor can produce a record with an
EMPTY name: a block whose h3-anchor text is a single space matches the name
pattern ([^<]+ accepts " ") and .strip() then empties it, refuting the
claimed non-empty-name invariant.  (The id invariant does hold.) -/
theorem c10_counterexample :
    parse_index_html c10html = [⟨"7", ""⟩] := by rfl

/-- C10 (amended): every HTML-extracted record has a non-empty all-digit id
(names, however, can strip to the empty string; see the counterexample), and
consequently a JSON record whose sku defaulted to the empty string never
equals an HTML-side id: whenever the comparison completes, some entry with
the empty id appears in the missing list. -/
theorem c10_theorem :
    (∀ (html : String) (r : HtmlArticle), r ∈ parse_index_html html →
        (r.id.toList ≠ [] ∧ r.id.toList.all Char.isDigit = true)) ∧
    (∀ (ja : List Article) (html : String) (res : CompareResult),
        compareArticles ja (parse_index_html html) = Except.ok res →
        (∃ a ∈ ja, a.id = JValue.str "") →
        ∃ m ∈ res.missing, m.id = JValue.str "") := by
  have part1 : ∀ (html : String) (r : HtmlArticle), r ∈ parse_index_html html →
      (r.id.toList ≠ [] ∧ r.id.toList.all Char.isDigit = true) := by
    intro html r hr
    rw [parse_index_html] at hr
    obtain ⟨b, _, hpb⟩ := List.mem_filterMap.mp hr
    cases hi : searchId b with
    | none => rw [parseBlock, hi] at hpb; cases hsn : searchName b <;> rw [hsn] at hpb <;> cases hpb
    | some i =>
      cases hsn : searchName b with
      | none => rw [parseBlock, hi, hsn] at hpb; cases hpb
      | some n =>
        rw [parseBlock, hi, hsn] at hpb
        have : (⟨i, pyStrip n⟩ : HtmlArticle) = r := Option.some.inj hpb
        have hrid : r.id = i := by rw [← this]
        rw [hrid]
        exact searchId_digits b i hi
  refine ⟨part1, ?_⟩
  rintro ja html res hcomp ⟨a, ha, haid⟩
  have hres : res.missing = missingOf ja (parse_index_html html) := by
    rw [compareArticles] at hcomp
    cases hbm : pyBuildJsonMap ja with
    | error e => rw [hbm] at hcomp; cases hcomp
    | ok jm =>
      rw [hbm] at hcomp
      dsimp only at hcomp
      cases hcu : checkUrls jm (commonOf ja (parse_index_html html)) with
      | error e => rw [hcu] at hcomp; cases hcomp
      | ok issues =>
        rw [hcu] at hcomp
        have := Except.ok.inj hcomp
        rw [← this]
  have hmem : JValue.str "" ∈ (missingOf ja (parse_index_html html)).map Article.id := by
    apply (mem_missing_ids ja (parse_index_html html) _).mpr
    refine ⟨List.mem_map.mpr ⟨a, ha, haid⟩, ?_⟩
    cases hc : idInIndex (indexMap (parse_index_html html)) (JValue.str "")
    · rfl
    · obtain ⟨s, hs, he⟩ := (idInIndex_iff (parse_index_html html) _).mp hc
      have hs0 : "" = s := JValue.str.inj he
      obtain ⟨r, hr, hrid⟩ := List.mem_map.mp hs
      have hinv := (part1 html r hr).1
      rw [hrid, ← hs0] at hinv
      exact absurd rfl hinv
  obtain ⟨m, hm, hmid⟩ := List.mem_map.mp hmem
  exact ⟨m, by rw [hres]; exact hm, hmid⟩

/-- C10 witness: the missing-list consequence applied to concrete inputs. -/
theorem c10_witness : ∃ m ∈ w10res.missing, m.id = JValue.str "" :=
  c10_theorem.2 w10ja w10html w10res rfl
    ⟨⟨.str "", .str "x", .str "u", .str ""⟩, by simp [w10ja], rfl⟩

/-- C4 counterexample: with all four fatal input conditions absent the
process can still fail to terminate normally: an uncaught
ValueError("Invalid IPv6 URL") from the URL check aborts the run, so
"otherwise terminates normally after printing the report" is false as
stated. -/
theorem c4_counterexample :
    runMain envBad = Outcome.uncaught "Invalid IPv6 URL" ∧ fatalCondB envBad = false := by
  constructor <;> rfl

/-- C4 (amended): the explicit non-zero-exit terminations are exactly the
four fatal input errors (seller id unresolvable, JSON file missing, JSON
file unparsable, catalog file missing — the last reached only after JSON
extraction ran); otherwise the run either terminates normally after
printing the report (regardless of the report's verdict) or aborts with an
uncaught extraction/comparison exception (see the counterexample). -/
theorem c4_theorem (env : Env) :
    ((runMain env).isFatalB = fatalCondB env) ∧
    (((runMain env).isSuccessB || (runMain env).isUncaughtB) = !(fatalCondB env)) := by
  rw [runMain, fatalCondB]
  cases hr : resolvedSeller env with
  | none => simp [Outcome.isFatalB, Outcome.isSuccessB, Outcome.isUncaughtB]
  | some s =>
    cases hj : env.jsonFile (s ++ ".json") with
    | missing => simp [hj, Outcome.isFatalB, Outcome.isSuccessB, Outcome.isUncaughtB]
    | unparsable => simp [hj, Outcome.isFatalB, Outcome.isSuccessB, Outcome.isUncaughtB]
    | parsed d =>
      cases he : extract_articles_from_json d with
      | error e => simp [hj, he, Outcome.isFatalB, Outcome.isSuccessB, Outcome.isUncaughtB]
      | ok arts =>
        cases hf : env.files (indexPathOf env) with
        | none => simp [hj, he, hf, Outcome.isFatalB, Outcome.isSuccessB, Outcome.isUncaughtB]
        | some html =>
          cases hcc : compareArticles arts (parse_index_html html) with
          | error e =>
            simp [hj, he, hf, hcc, Outcome.isFatalB, Outcome.isSuccessB, Outcome.isUncaughtB]
          | ok r =>
            simp [hj, he, hf, hcc, Outcome.isFatalB, Outcome.isSuccessB, Outcome.isUncaughtB]

theorem any_key_eq_find? {β : Type} (kvs : List (String × β)) (k : String) :
    (kvs.any fun p => decide (p.1 = k)) = (kvs.find? fun p => decide (p.1 = k)).isSome := by
  induction kvs with
  | nil => rfl
  | cons p rest ih =>
    by_cases hp : p.1 = k <;> simp [List.any_cons, List.find?_cons, hp, ih]

theorem pyGetD_obj (ikvs : List (String × JValue)) (k : String) (d : JValue) :
    pyGetD (JValue.obj ikvs) k d = Except.ok ((jLookup ikvs k).getD d) := by
  rw [pyGetD, jLookup]
  cases ikvs.find? fun p => decide (p.1 = k) <;> rfl

theorem jLookup_nil (k : String) : jLookup [] k = none := rfl

theorem extractOne_spec (li : JValue) (h : elemOK li = true) :
    ∃ a?, extractOne li = Except.ok a? ∧ a?.toList = specElemRecords li := by
  cases li with
  | null => simp [elemOK] at h
  | bool b => simp [elemOK] at h
  | num s => simp [elemOK] at h
  | str s => simp [elemOK] at h
  | arr xs => simp [elemOK] at h
  | obj lkvs =>
    rw [elemOK] at h
    cases hfind : lkvs.find? (fun p => decide (p.1 = "item")) with
    | none =>
      have hany : (lkvs.any fun p => decide (p.1 = "item")) = false := by
        rw [any_key_eq_find?, hfind]; rfl
      have hj : jLookup lkvs "item" = none := by rw [jLookup, hfind]; rfl
      exact ⟨none, by simp [extractOne, pyContains, hany], by simp [specElemRecords, hj]⟩
    | some p0 =>
      have hany : (lkvs.any fun p => decide (p.1 = "item")) = true := by
        rw [any_key_eq_find?, hfind]; rfl
      have hj : jLookup lkvs "item" = some p0.2 := by rw [jLookup, hfind]; rfl
      have hsub : pySubscript (JValue.obj lkvs) "item" = Except.ok p0.2 := by
        rw [pySubscript, hfind]
      rw [hj] at h
      cases hit : p0.2 with
      | null => rw [hit] at h; simp at h
      | bool b => rw [hit] at h; simp at h
      | num s => rw [hit] at h; simp at h
      | str s => rw [hit] at h; simp at h
      | arr xs => rw [hit] at h; simp at h
      | obj ikvs =>
        rw [hit] at h hsub
        dsimp only at h
        cases hfind2 : ikvs.find? (fun p => decide (p.1 = "@type")) with
        | none =>
          have hany2 : (ikvs.any fun p => decide (p.1 = "@type")) = false := by
            rw [any_key_eq_find?, hfind2]; rfl
          have hj2 : jLookup ikvs "@type" = none := by rw [jLookup, hfind2]; rfl
          refine ⟨none, ?_, ?_⟩
          · simp [extractOne, pyContains, hany, hsub, hany2]
          · simp [specElemRecords, hj, hit, hj2]
        | some q0 =>
          have hany2 : (ikvs.any fun p => decide (p.1 = "@type")) = true := by
            rw [any_key_eq_find?, hfind2]; rfl
          have hj2 : jLookup ikvs "@type" = some q0.2 := by rw [jLookup, hfind2]; rfl
          have hsub2 : pySubscript (JValue.obj ikvs) "@type" = Except.ok q0.2 := by
            rw [pySubscript, hfind2]
          by_cases hq : q0.2 = JValue.str "Product"
          · have hoff : offersOK ikvs = true := by
              rw [hj2, hq] at h
              simpa using h
            rw [offersOK] at hoff
            cases hjo : jLookup ikvs "offers" with
            | none =>
              refine ⟨some ⟨(jLookup ikvs "sku").getD (.str ""),
                  (jLookup ikvs "name").getD (.str ""),
                  (jLookup ikvs "url").getD (.str ""), .str ""⟩, ?_, ?_⟩
              · simp [extractOne, pyContains, hany, hsub, hany2, hsub2, hq,
                  pyGetD_obj, hjo, jLookup_nil]
              · simp [specElemRecords, hj, hit, hj2, hq, specProductRecord, hjo]
            | some ov =>
              cases ov with
              | obj okvs =>
                refine ⟨some ⟨(jLookup ikvs "sku").getD (.str ""),
                    (jLookup ikvs "name").getD (.str ""),
                    (jLookup ikvs "url").getD (.str ""),
                    (jLookup okvs "price").getD (.str "")⟩, ?_, ?_⟩
                · simp [extractOne, pyContains, hany, hsub, hany2, hsub2, hq,
                    pyGetD_obj, hjo]
                · simp [specElemRecords, hj, hit, hj2, hq, specProductRecord, hjo]
              | null => rw [hjo] at hoff; simp at hoff
              | bool b => rw [hjo] at hoff; simp at hoff
              | num s => rw [hjo] at hoff; simp at hoff
              | str s => rw [hjo] at hoff; simp at hoff
              | arr xs => rw [hjo] at hoff; simp at hoff
          · refine ⟨none, ?_, ?_⟩
            · simp [extractOne, pyContains, hany, hsub, hany2, hsub2, hq]
            · simp [specElemRecords, hj, hit, hj2, hq]

theorem extractProducts_spec (elems : List JValue) (h : elems.all elemOK = true) :
    extractProducts elems = Except.ok (elems.foldr (fun li acc => specElemRecords li ++ acc) []) := by
  induction elems with
  | nil => rfl
  | cons li rest ih =>
    simp only [List.all_cons, Bool.and_eq_true] at h
    obtain ⟨a?, he, ht⟩ := extractOne_spec li h.1
    rw [extractProducts, he, ih h.2]
    cases a? with
    | none =>
      simp only [Option.toList] at ht
      simp [List.foldr_cons, ← ht]
    | some a =>
      simp only [Option.toList] at ht
      simp [List.foldr_cons, ← ht]

theorem extractFromItem_spec (item : JValue) (h : itemOK item = true) :
    extractFromItem item = Except.ok (specItemRecords item) := by
  cases item with
  | null => simp [itemOK] at h
  | bool b => simp [itemOK] at h
  | num s => simp [itemOK] at h
  | str s => simp [itemOK] at h
  | arr xs => simp [itemOK] at h
  | obj kvs =>
    rw [itemOK] at h
    cases hfind : kvs.find? (fun p => decide (p.1 = "@type")) with
    | none =>
      have hany : (kvs.any fun p => decide (p.1 = "@type")) = false := by
        rw [any_key_eq_find?, hfind]; rfl
      have hj : jLookup kvs "@type" = none := by rw [jLookup, hfind]; rfl
      simp [extractFromItem, pyContains, hany, specItemRecords, hj]
    | some q0 =>
      have hany : (kvs.any fun p => decide (p.1 = "@type")) = true := by
        rw [any_key_eq_find?, hfind]; rfl
      have hj : jLookup kvs "@type" = some q0.2 := by rw [jLookup, hfind]; rfl
      have hsub : pySubscript (JValue.obj kvs) "@type" = Except.ok q0.2 := by
        rw [pySubscript, hfind]
      rw [hj] at h
      by_cases hq : q0.2 = JValue.str "ItemList"
      · have h2 : (match jLookup kvs "itemListElement" with
            | none => true
            | some (.arr elems) => elems.all elemOK
            | some _ => false) = true := by
          rw [hq] at h
          simpa using h
        cases hile : jLookup kvs "itemListElement" with
        | none =>
          simp [extractFromItem, pyContains, hany, hsub, hq, pyGetD_obj, hile,
            pyIter, extractProducts, specItemRecords, hj]
        | some ov =>
          cases ov with
          | arr elems =>
            have hall : elems.all elemOK = true := by
              rw [hile] at h2
              simpa using h2
            rw [extractFromItem]
            simp only [pyContains, hany, hsub, hq, if_pos, pyGetD_obj, hile]
            simp only [Option.getD_some, pyIter]
            rw [extractProducts_spec elems hall]
            simp [specItemRecords, hj, hq, hile]
          | null => rw [hile] at h2; simp at h2
          | bool b => rw [hile] at h2; simp at h2
          | num s => rw [hile] at h2; simp at h2
          | str s => rw [hile] at h2; simp at h2
          | obj okvs => rw [hile] at h2; simp at h2
      · simp [extractFromItem, pyContains, hany, hsub, hq, specItemRecords, hj]

theorem extractItemsList_spec (items : List JValue) (h : items.all itemOK = true) :
    extractItemsList items =
      Except.ok (items.foldr (fun item acc => specItemRecords item ++ acc) []) := by
  induction items with
  | nil => rfl
  | cons item rest ih =>
    simp only [List.all_cons, Bool.and_eq_true] at h
    rw [extractItemsList, extractFromItem_spec item h.1, ih h.2]
    rfl

/-- C5 counterexample: elements not matching the type tags are NOT always
ignored without error: an itemListElement entry that is the string "item"
passes the Python membership test (substring) and then the string subscript
raises an uncaught TypeError, aborting extraction. -/
theorem c5_counterexample :
    extract_articles_from_json c5bad =
      Except.error "TypeError: string indices must be integers" := by rfl

/-- C5 (amended): provided the itemListElement value of each ItemList object
is an array whose elements are objects, each present item value is an object
and each Product's present offers value is an object, the extractor emits —
in input order, without de-duplication and without error — exactly one
record per Product element, with sku/name/url and offers.price each
defaulting to the empty string (a missing offers treated as empty); on such
inputs non-matching objects and elements are ignored.  (Other shapes can
raise a type error; see the counterexample.) -/
theorem c5_theorem (d : JValue) (h : shapeOK d = true) :
    extract_articles_from_json d = Except.ok (specJsonRecords d) := by
  cases d with
  | null => simp [shapeOK] at h
  | bool b => simp [shapeOK] at h
  | num s => simp [shapeOK] at h
  | str s => simp [shapeOK] at h
  | obj kvs => simp [shapeOK] at h
  | arr items =>
    rw [shapeOK] at h
    rw [extract_articles_from_json]
    simp only [pyIter]
    rw [extractItemsList_spec items h]
    rfl

/-- C5 witness: the extraction property applied to a concrete well-shaped
document. -/
theorem c5_witness :
    shapeOK w5doc = true ∧
      extract_articles_from_json w5doc = Except.ok (specJsonRecords w5doc) :=
  ⟨by decide, c5_theorem w5doc (by decide)⟩
